import Mathlib

/-!
Shallow embedding of `src/handler.py` (a single-operator retail store:
items, inventory, sales history, a permission-gated store façade).

Modelling conventions:
- Python `float` prices/discounts become `ℚ`; quantities and item ids become `ℤ`.
- Python's insertion-ordered `dict` becomes an insertion-ordered association
  list `List (Int × Item)`; key membership and indexing follow Python's
  equality-based semantics.
- A raising method becomes a function returning the post-state paired with
  `Option Err`: `none` on normal return, `some e` when the Python code raises.
  The post-state on an error is exactly the (possibly partially mutated)
  object the exception leaves behind.
- Logging / printing is external I/O and is not modelled; `search_items`
  is modelled as returning the `results` list the Python code builds.
-/

namespace Handler

/-- The error taxonomy of the spec (the Python code raises `ValueError`
with distinguishing messages, and `PermissionError`). -/
inductive Err where
  | invalidArgument
  | alreadyExists
  | notFound
  | insufficientStock
  | permissionDenied
deriving Repr, DecidableEq

/-- `Item`: a priced, discountable stock-keeping unit (handler.py lines 13-55). -/
structure Item where
  item_id : Int
  name : String
  price : ℚ
  quantity : Int
  discount : ℚ
deriving Repr, DecidableEq

/-- `Item.__init__(item_id, name, price, quantity=0)`: discount starts at 0. -/
def Item.init (item_id : Int) (name : String) (price : ℚ) (quantity : Int) : Item :=
  { item_id := item_id, name := name, price := price, quantity := quantity, discount := 0 }

/-- `Item.set_discount`: sets the discount if `0 <= p <= 100`, else raises
`ValueError` leaving the item unchanged. -/
def Item.set_discount (it : Item) (discount_percent : ℚ) : Item × Option Err :=
  if 0 ≤ discount_percent ∧ discount_percent ≤ 100 then
    ({ it with discount := discount_percent }, none)
  else
    (it, some .invalidArgument)

/-- `Item.get_discounted_price`: `price * (1 - discount / 100)`. -/
def Item.get_discounted_price (it : Item) : ℚ :=
  it.price * (1 - it.discount / 100)

/-- The record shape written to / read from the inventory JSON file.
`discount` is `Option` because `from_dict` tolerates its absence. -/
structure ItemRecord where
  item_id : Int
  name : String
  price : ℚ
  quantity : Int
  discount : Option ℚ
deriving Repr, DecidableEq

/-- `Item.to_dict`: serializes all five attributes. -/
def Item.to_dict (it : Item) : ItemRecord :=
  { item_id := it.item_id, name := it.name, price := it.price,
    quantity := it.quantity, discount := some it.discount }

/-- `Item.from_dict`: rebuilds the item; `data.get('discount', 0)` defaults
the discount to 0 when the record lacks it. -/
def Item.from_dict (data : ItemRecord) : Item :=
  { item_id := data.item_id, name := data.name, price := data.price,
    quantity := data.quantity, discount := data.discount.getD 0 }

/-- `Inventory`: an insertion-ordered mapping from item id to `Item`. -/
structure Inventory where
  items : List (Int × Item)
deriving Repr, DecidableEq

/-- Key lookup, Python `self.items[item_id]` / `.get`: first binding wins. -/
def getItem (item_id : Int) : List (Int × Item) → Option Item
  | [] => none
  | (k, it) :: rest => if k = item_id then some it else getItem item_id rest

/-- The keys of the mapping, in iteration order. -/
def keysOf (l : List (Int × Item)) : List Int :=
  l.map Prod.fst

/-- In-place mutation of the item stored under a key: Python mutates the
object `self.items[item_id]` returns, i.e. the (unique) binding of that key,
keeping its position in the mapping. -/
def updateAt (item_id : Int) (f : Item → Item) : List (Int × Item) → List (Int × Item)
  | [] => []
  | (k, it) :: rest =>
    if k = item_id then (k, f it) :: rest
    else (k, it) :: updateAt item_id f rest

/-- `Inventory.add_item`: raises `AlreadyExists` on a duplicate key, else
inserts at the end of the mapping (Python dict insertion order). -/
def Inventory.add_item (inv : Inventory) (item : Item) : Inventory × Option Err :=
  if (getItem item.item_id inv.items).isSome then
    (inv, some .alreadyExists)
  else
    (⟨inv.items ++ [(item.item_id, item)]⟩, none)

/-- `Inventory.update_quantity`: raises `NotFound` for an absent id, else
overwrites the quantity unconditionally. -/
def Inventory.update_quantity (inv : Inventory) (item_id : Int) (quantity : Int) :
    Inventory × Option Err :=
  match getItem item_id inv.items with
  | none => (inv, some .notFound)
  | some _ => (⟨updateAt item_id (fun it => { it with quantity := quantity }) inv.items⟩, none)

/-- `Inventory.apply_discount_to_item`: raises `NotFound` for an absent id,
else delegates to `Item.set_discount` (which may raise `InvalidArgument`). -/
def Inventory.apply_discount_to_item (inv : Inventory) (item_id : Int)
    (discount_percent : ℚ) : Inventory × Option Err :=
  match getItem item_id inv.items with
  | none => (inv, some .notFound)
  | some it =>
    match it.set_discount discount_percent with
    | (_, some e) => (inv, some e)
    | (it2, none) => (⟨updateAt item_id (fun _ => it2) inv.items⟩, none)

/-- The loop body of `Inventory.apply_discount_to_all`: items are visited in
iteration order; a raising `set_discount` aborts the loop with every earlier
item already mutated and the failing and later items untouched. -/
def applyAllAux (discount_percent : ℚ) : List (Int × Item) → List (Int × Item) × Option Err
  | [] => ([], none)
  | (k, it) :: rest =>
    match it.set_discount discount_percent with
    | (_, some e) => ((k, it) :: rest, some e)
    | (it2, none) =>
      match applyAllAux discount_percent rest with
      | (rest2, e2) => ((k, it2) :: rest2, e2)

/-- `Inventory.apply_discount_to_all`: fail-fast iteration over all items. -/
def Inventory.apply_discount_to_all (inv : Inventory) (discount_percent : ℚ) :
    Inventory × Option Err :=
  match applyAllAux discount_percent inv.items with
  | (l, e) => (⟨l⟩, e)

/-- `Inventory.adjust_quantity`: `NotFound` for an absent id,
`InsufficientStock` when `quantity + change < 0`, else applies the delta. -/
def Inventory.adjust_quantity (inv : Inventory) (item_id : Int)
    (quantity_change : Int) : Inventory × Option Err :=
  match getItem item_id inv.items with
  | none => (inv, some .notFound)
  | some it =>
    if it.quantity + quantity_change < 0 then
      (inv, some .insufficientStock)
    else
      (⟨updateAt item_id (fun i => { i with quantity := i.quantity + quantity_change })
          inv.items⟩, none)

/-- `Inventory.find_item`: the item or `None`; never raises. -/
def Inventory.find_item (inv : Inventory) (item_id : Int) : Option Item :=
  getItem item_id inv.items

/-- Python `str.lower()` on the character sequence of a string. -/
def strLower (s : String) : List Char :=
  s.data.map Char.toLower

/-- Python's `needle in haystack` substring test on character lists. -/
def containsSub (needle : List Char) : List Char → Bool
  | [] => needle.isEmpty
  | c :: rest => needle.isPrefixOf (c :: rest) || containsSub needle rest

/-- Specification-side predicate: `needle` occurs contiguously inside
`hay`. Used to state what `containsSub` (Python's `in`) computes. -/
def isSubstring (needle hay : List Char) : Prop :=
  ∃ pre suf, hay = pre ++ needle ++ suf

/-- The values of the mapping, in iteration order (`self.items.values()`). -/
def invValues (inv : Inventory) : List Item :=
  inv.items.map Prod.snd

/-- `Inventory.search_items`: the `results` list comprehension — the items
whose lowercased name contains the lowercased keyword, in mapping order. -/
def Inventory.search_items (inv : Inventory) (name_keyword : String) : List Item :=
  (invValues inv).filter (fun item => containsSub (strLower name_keyword) (strLower item.name))

/-- `Inventory.save_inventory`: the sequence of records written to the file. -/
def Inventory.save_inventory (inv : Inventory) : List ItemRecord :=
  inv.items.map (fun p => p.2.to_dict)

/-- Python dict assignment `d[k] = v`: overwrite in place if the key exists
(keeping its position), else append. -/
def dictInsert (k : Int) (v : Item) : List (Int × Item) → List (Int × Item)
  | [] => [(k, v)]
  | (k2, v2) :: rest => if k2 = k then (k2, v) :: rest else (k2, v2) :: dictInsert k v rest

/-- `Inventory.load_inventory` on an existing file: the dict comprehension
`{r['item_id']: Item.from_dict(r) for r in items_data}`, replacing the
mapping wholesale. -/
def Inventory.load_inventory (items_data : List ItemRecord) : Inventory :=
  ⟨items_data.foldl (fun acc r => dictInsert r.item_id (Item.from_dict r) acc) []⟩

/-- The per-item invariant of the spec: `quantity ≥ 0` and `0 ≤ discount ≤ 100`. -/
def goodItem (it : Item) : Prop :=
  0 ≤ it.quantity ∧ 0 ≤ it.discount ∧ it.discount ≤ 100

instance (it : Item) : Decidable (goodItem it) := by
  unfold goodItem; infer_instance

/-- The inventory invariant: every stored item satisfies `goodItem`. -/
def invGood (inv : Inventory) : Prop :=
  ∀ p ∈ inv.items, goodItem p.2

instance (inv : Inventory) : Decidable (invGood inv) :=
  List.decidableBAll _ _

/-- `User`: a named actor with a role string (handler.py lines 135-150). -/
structure User where
  username : String
  role : String
deriving Repr, DecidableEq

/-- `User.is_admin`: `role == 'admin'`. -/
def User.is_admin (u : User) : Bool :=
  u.role = "admin"

/-- A `(name, quantity)` sale line entry, detached from live `Item` objects. -/
structure SaleLine where
  name : String
  quantity : Int
deriving Repr, DecidableEq

/-- `Sale`: an immutable record of a completed transaction. The creation
timestamp is an abstract `Nat` supplied by the environment. -/
structure Sale where
  items : List SaleLine
  total_cost : ℚ
  date : Nat
  customer_name : String
deriving Repr, DecidableEq

/-- `SalesHistory`: append-only ledger of sales. -/
structure SalesHistory where
  sales : List Sale
deriving Repr, DecidableEq

/-- `SalesHistory.record_sale`: appends; never fails. -/
def SalesHistory.record_sale (h : SalesHistory) (sale : Sale) : SalesHistory :=
  ⟨h.sales ++ [sale]⟩

/-- `SalesHistory.get_total_revenue`: sum of all `total_cost`. -/
def SalesHistory.get_total_revenue (h : SalesHistory) : ℚ :=
  (h.sales.map Sale.total_cost).sum

/-- One entry of the external cart collaborator: a live item reference and
a purchased quantity (`cart.cart_items` elements). -/
structure CartItem where
  item : Item
  quantity : Int
deriving Repr, DecidableEq

/-- The external cart collaborator: `checkout()` yields `total`, and
`cart_items` is the finalized line-entry list at checkout time. -/
structure Cart where
  total : ℚ
  cart_items : List CartItem
deriving Repr, DecidableEq

/-- `Store`: façade composing `Inventory` + `SalesHistory` + `User`. -/
structure Store where
  inventory : Inventory
  sales_history : SalesHistory
  user : User
deriving Repr, DecidableEq

/-- `Store.add_item_to_inventory` (admin-only): constructs the `Item` and
delegates to `Inventory.add_item`. -/
def Store.add_item_to_inventory (s : Store) (item_id : Int) (name : String)
    (price : ℚ) (quantity : Int) : Store × Option Err :=
  if ¬ s.user.is_admin then
    (s, some .permissionDenied)
  else
    match s.inventory.add_item (Item.init item_id name price quantity) with
    | (inv2, e) => ({ s with inventory := inv2 }, e)

/-- `Store.update_inventory_quantity` (admin-only). -/
def Store.update_inventory_quantity (s : Store) (item_id : Int) (quantity : Int) :
    Store × Option Err :=
  if ¬ s.user.is_admin then
    (s, some .permissionDenied)
  else
    match s.inventory.update_quantity item_id quantity with
    | (inv2, e) => ({ s with inventory := inv2 }, e)

/-- `Store.apply_discount(item_id=None, discount_percent=0)` (admin-only):
Python dispatches on the truthiness of `item_id` (`if item_id:`), so both
`None` and a falsy id such as `0` select the bulk branch. -/
def Store.apply_discount (s : Store) (item_id : Option Int) (discount_percent : ℚ) :
    Store × Option Err :=
  if ¬ s.user.is_admin then
    (s, some .permissionDenied)
  else if (match item_id with | none => false | some i => i ≠ 0 : Bool) then
    match s.inventory.apply_discount_to_item (item_id.getD 0) discount_percent with
    | (inv2, e) => ({ s with inventory := inv2 }, e)
  else
    match s.inventory.apply_discount_to_all discount_percent with
    | (inv2, e) => ({ s with inventory := inv2 }, e)

/-- `Store.checkout_cart`: asks the cart for the total, snapshots the
line entries, records a `Sale`, returns the total cost. -/
def Store.checkout_cart (s : Store) (cart : Cart) (customer_name : String)
    (now : Nat) : Store × ℚ :=
  let total_cost := cart.total
  let items := cart.cart_items.map (fun ci => SaleLine.mk ci.item.name ci.quantity)
  let sale : Sale := { items := items, total_cost := total_cost,
                       date := now, customer_name := customer_name }
  ({ s with sales_history := s.sales_history.record_sale sale }, total_cost)

/-! ## Helper lemmas -/

theorem set_discount_valid (it : Item) (p : ℚ) (h0 : 0 ≤ p) (h1 : p ≤ 100) :
    it.set_discount p = ({ it with discount := p }, none) := by
  simp [Item.set_discount, h0, h1]

theorem set_discount_invalid (it : Item) (p : ℚ) (h : ¬ (0 ≤ p ∧ p ≤ 100)) :
    it.set_discount p = (it, some .invalidArgument) := by
  simp [Item.set_discount, h]

theorem getItem_updateAt (item_id : Int) (f : Item → Item) (l : List (Int × Item)) :
    getItem item_id (updateAt item_id f l) = (getItem item_id l).map f := by
  induction l with
  | nil => rfl
  | cons p rest ih =>
    obtain ⟨k, it⟩ := p
    by_cases h : k = item_id
    · simp [getItem, updateAt, h]
    · simp [getItem, updateAt, h, ih]

theorem getItem_mem (item_id : Int) (l : List (Int × Item)) (it : Item)
    (h : getItem item_id l = some it) : (item_id, it) ∈ l := by
  induction l with
  | nil => simp [getItem] at h
  | cons q rest ih =>
    obtain ⟨k, it2⟩ := q
    by_cases hk : k = item_id
    · subst hk
      simp [getItem] at h
      simp [h]
    · simp only [getItem, if_neg hk] at h
      exact List.mem_cons_of_mem _ (ih h)

theorem updateAt_preserves (item_id : Int) (f : Item → Item) (l : List (Int × Item))
    (hl : ∀ p ∈ l, goodItem p.2)
    (hf : ∀ it, getItem item_id l = some it → goodItem (f it)) :
    ∀ p ∈ updateAt item_id f l, goodItem p.2 := by
  induction l with
  | nil => simp [updateAt]
  | cons q rest ih =>
    obtain ⟨k, it⟩ := q
    have hit : goodItem it := by simpa using hl (k, it) (by simp)
    have hrest : ∀ p ∈ rest, goodItem p.2 := fun p hp => hl p (by simp [hp])
    intro p hp
    by_cases h : k = item_id
    · simp only [updateAt, if_pos h] at hp
      rcases List.mem_cons.mp hp with h2 | h2
      · subst h2
        exact hf it (by simp [getItem, h])
      · exact hrest p h2
    · simp only [updateAt, if_neg h] at hp
      rcases List.mem_cons.mp hp with h2 | h2
      · subst h2; exact hit
      · exact ih hrest (fun it2 h2 => hf it2 (by simp [getItem, h, h2])) p h2

theorem applyAllAux_valid (p : ℚ) (h0 : 0 ≤ p) (h1 : p ≤ 100) (l : List (Int × Item)) :
    applyAllAux p l = (l.map (fun q => (q.1, { q.2 with discount := p })), none) := by
  induction l with
  | nil => rfl
  | cons q rest ih =>
    obtain ⟨k, it⟩ := q
    simp [applyAllAux, set_discount_valid it p h0 h1, ih]

theorem applyAllAux_invalid (p : ℚ) (h : ¬ (0 ≤ p ∧ p ≤ 100)) (l : List (Int × Item)) :
    applyAllAux p l = (l, if l = [] then none else some .invalidArgument) := by
  cases l with
  | nil => rfl
  | cons q rest =>
    obtain ⟨k, it⟩ := q
    simp [applyAllAux, set_discount_invalid it p h]

theorem getItem_append_self (item_id : Int) (it : Item) (l : List (Int × Item))
    (h : getItem item_id l = none) :
    getItem item_id (l ++ [(item_id, it)]) = some it := by
  induction l with
  | nil => simp [getItem]
  | cons q rest ih =>
    obtain ⟨k, it2⟩ := q
    by_cases hk : k = item_id
    · simp [getItem, hk] at h
    · simp only [getItem, if_neg hk] at h ⊢
      exact ih h

theorem isPrefixOf_iff : ∀ n h : List Char, n.isPrefixOf h = true ↔ ∃ t, h = n ++ t
  | [], h => by simp [List.isPrefixOf]
  | c :: n, [] => by simp [List.isPrefixOf]
  | c :: n, d :: h => by
    simp only [List.isPrefixOf, Bool.and_eq_true, beq_iff_eq, isPrefixOf_iff n h,
      List.cons_append]
    constructor
    · rintro ⟨rfl, t, rfl⟩
      exact ⟨t, rfl⟩
    · rintro ⟨t, het⟩
      injection het with h1 h2
      exact ⟨h1.symm, t, h2⟩

theorem containsSub_iff : ∀ n h : List Char, containsSub n h = true ↔ isSubstring n h
  | n, [] => by
    constructor
    · intro he
      have : n = [] := by simpa [containsSub, List.isEmpty_iff] using he
      exact ⟨[], [], by simp [this]⟩
    · rintro ⟨pre, suf, he⟩
      have : n = [] := by
        rcases List.append_eq_nil.mp (List.append_eq_nil.mp he.symm).1 with ⟨_, h2⟩
        exact h2
      simp [containsSub, this]
  | n, c :: h => by
    simp only [containsSub, Bool.or_eq_true, isPrefixOf_iff, containsSub_iff n h]
    constructor
    · rintro (⟨t, ht⟩ | hsub)
      · exact ⟨[], t, by simpa using ht⟩
      · obtain ⟨pre, suf, rfl⟩ := hsub
        exact ⟨c :: pre, suf, by simp⟩
    · rintro ⟨pre, suf, he⟩
      cases pre with
      | nil =>
        left
        exact ⟨suf, by simpa using he⟩
      | cons d pre2 =>
        right
        rw [List.cons_append, List.cons_append] at he
        injection he with h1 h2
        exact ⟨pre2, suf, h2⟩

theorem dictInsert_fresh (k : Int) (v : Item) (l : List (Int × Item))
    (h : k ∉ keysOf l) : dictInsert k v l = l ++ [(k, v)] := by
  induction l with
  | nil => rfl
  | cons q rest ih =>
    obtain ⟨k2, v2⟩ := q
    simp only [keysOf, List.map_cons, List.mem_cons, not_or] at h
    have hk : ¬ k2 = k := fun e => h.1 e.symm
    simp only [dictInsert, if_neg hk, List.cons_append]
    rw [ih h.2]

theorem load_foldl (rs : List ItemRecord) : ∀ acc : List (Int × Item),
    (rs.map ItemRecord.item_id).Nodup →
    (∀ r ∈ rs, r.item_id ∉ keysOf acc) →
    rs.foldl (fun acc r => dictInsert r.item_id (Item.from_dict r) acc) acc
      = acc ++ rs.map (fun r => (r.item_id, Item.from_dict r)) := by
  induction rs with
  | nil => simp
  | cons r rest ih =>
    intro acc hnd hdisj
    obtain ⟨hhead, htail⟩ :
        (∀ x ∈ rest, ¬ x.item_id = r.item_id) ∧ (rest.map ItemRecord.item_id).Nodup := by
      simpa using hnd
    rw [List.foldl_cons, dictInsert_fresh _ _ _ (hdisj r (by simp))]
    rw [ih (acc ++ [(r.item_id, Item.from_dict r)]) htail ?disj]
    · simp
    case disj =>
      intro r2 hr2
      have h1 : r2.item_id ∉ keysOf acc := hdisj r2 (by simp [hr2])
      have hk : keysOf (acc ++ [(r.item_id, Item.from_dict r)]) = keysOf acc ++ [r.item_id] := by
        simp [keysOf]
      rw [hk]
      simp only [List.mem_append, List.mem_singleton, not_or]
      exact ⟨h1, hhead r2 hr2⟩

/-! ## Claim theorems -/

/-- C2: for every `Item` and percent `p`, if `0 ≤ p ≤ 100` then
`set_discount p` succeeds and afterwards `get_discounted_price` equals
`price * (1 - p/100)`; if `p < 0` or `p > 100` it fails with
`InvalidArgument` and the item (all fields) is unchanged. -/
theorem C2_set_discount_contract (it : Item) (p : ℚ) :
    (0 ≤ p → p ≤ 100 →
      (it.set_discount p).2 = none ∧
      ((it.set_discount p).1).get_discounted_price = it.price * (1 - p / 100)) ∧
    (p < 0 ∨ 100 < p →
      (it.set_discount p).2 = some .invalidArgument ∧ (it.set_discount p).1 = it) := by
  constructor
  · intro h0 h1
    rw [set_discount_valid it p h0 h1]
    exact ⟨rfl, rfl⟩
  · intro h
    have hv : ¬ (0 ≤ p ∧ p ≤ 100) := by
      rcases h with h | h <;> rintro ⟨a, b⟩ <;> linarith
    rw [set_discount_invalid it p hv]
    exact ⟨rfl, rfl⟩

/-- Witness for C2 at `Item 1 "w" 10 5 0` with `p = 20` and `p = 150`. -/
theorem C2_set_discount_contract_witness :
    ((Item.mk 1 "w" 10 5 0).set_discount 20).2 = none ∧
    (((Item.mk 1 "w" 10 5 0).set_discount 20).1).get_discounted_price
      = (Item.mk 1 "w" 10 5 0).price * (1 - 20 / 100) ∧
    ((Item.mk 1 "w" 10 5 0).set_discount 150).2 = some .invalidArgument ∧
    ((Item.mk 1 "w" 10 5 0).set_discount 150).1 = Item.mk 1 "w" 10 5 0 :=
  ⟨((C2_set_discount_contract (Item.mk 1 "w" 10 5 0) 20).1 (by decide) (by decide)).1,
   ((C2_set_discount_contract (Item.mk 1 "w" 10 5 0) 20).1 (by decide) (by decide)).2,
   ((C2_set_discount_contract (Item.mk 1 "w" 10 5 0) 150).2 (Or.inr (by decide))).1,
   ((C2_set_discount_contract (Item.mk 1 "w" 10 5 0) 150).2 (Or.inr (by decide))).2⟩

/-- C3: `adjust_quantity` fails with `InsufficientStock` iff
`quantity + delta < 0` (for a present id); on success the stored quantity
becomes exactly `quantity + delta`; an absent id fails with `NotFound`; and
every failure leaves the inventory unchanged. -/
theorem C3_adjust_quantity_contract (inv : Inventory) (item_id delta : Int) :
    (∀ it, getItem item_id inv.items = some it →
      ((inv.adjust_quantity item_id delta).2 = some .insufficientStock ↔
          it.quantity + delta < 0) ∧
      ((inv.adjust_quantity item_id delta).2 = none →
        getItem item_id (inv.adjust_quantity item_id delta).1.items
          = some { it with quantity := it.quantity + delta })) ∧
    (getItem item_id inv.items = none →
      inv.adjust_quantity item_id delta = (inv, some .notFound)) ∧
    ((inv.adjust_quantity item_id delta).2 ≠ none →
      (inv.adjust_quantity item_id delta).1 = inv) := by
  refine ⟨?_, ?_, ?_⟩
  · intro it hit
    by_cases hneg : it.quantity + delta < 0
    · constructor
      · simp [Inventory.adjust_quantity, hit, hneg]
      · simp [Inventory.adjust_quantity, hit, hneg]
    · constructor
      · simp [Inventory.adjust_quantity, hit, hneg]
      · intro _
        simp only [Inventory.adjust_quantity, hit, if_neg hneg]
        rw [getItem_updateAt, hit]
        rfl
  · intro hnone
    simp [Inventory.adjust_quantity, hnone]
  · intro herr
    unfold Inventory.adjust_quantity at herr ⊢
    cases hit : getItem item_id inv.items with
    | none => simp [hit]
    | some it =>
      by_cases hneg : it.quantity + delta < 0
      · simp [hit, hneg]
      · simp [hit, hneg] at herr

/-- Witness for C3 on a one-item inventory: a delta of `-2` from stock 5
succeeds leaving 3; an absent id yields `NotFound`. -/
theorem C3_adjust_quantity_contract_witness :
    (((Inventory.mk [(1, Item.mk 1 "w" 10 5 0)]).adjust_quantity 1 (-2)).2
        = some Err.insufficientStock ↔ (Item.mk 1 "w" 10 5 0).quantity + (-2) < 0) ∧
    (((Inventory.mk [(1, Item.mk 1 "w" 10 5 0)]).adjust_quantity 1 (-2)).2 = none →
      getItem 1 ((Inventory.mk [(1, Item.mk 1 "w" 10 5 0)]).adjust_quantity 1 (-2)).1.items
        = some { Item.mk 1 "w" 10 5 0 with quantity := (Item.mk 1 "w" 10 5 0).quantity + (-2) }) ∧
    (Inventory.mk [(1, Item.mk 1 "w" 10 5 0)]).adjust_quantity 2 (-2)
      = (Inventory.mk [(1, Item.mk 1 "w" 10 5 0)], some Err.notFound) :=
  ⟨((C3_adjust_quantity_contract (Inventory.mk [(1, Item.mk 1 "w" 10 5 0)]) 1 (-2)).1
      (Item.mk 1 "w" 10 5 0) (by decide)).1,
   ((C3_adjust_quantity_contract (Inventory.mk [(1, Item.mk 1 "w" 10 5 0)]) 1 (-2)).1
      (Item.mk 1 "w" 10 5 0) (by decide)).2,
   (C3_adjust_quantity_contract (Inventory.mk [(1, Item.mk 1 "w" 10 5 0)]) 2 (-2)).2.1
      (by decide)⟩

/-- C6: `search_items` returns the list of exactly those items whose name
contains the keyword case-insensitively, in mapping iteration order
(a sublist of the values), and the inventory itself is untouched. -/
theorem C6_search_items_contract (inv : Inventory) (kw : String) :
    List.Sublist (inv.search_items kw) (invValues inv) ∧
    (∀ it, it ∈ inv.search_items kw ↔
        it ∈ invValues inv ∧ isSubstring (strLower kw) (strLower it.name)) ∧
    inv.search_items kw =
      (invValues inv).filter (fun it => containsSub (strLower kw) (strLower it.name)) := by
  refine ⟨List.filter_sublist _, ?_, rfl⟩
  intro it
  rw [Inventory.search_items, List.mem_filter, containsSub_iff]

/-- C7: `add_item` fails with `AlreadyExists` on a duplicate id keeping the
mapping (and hence the stored item) unchanged; on a fresh id it appends the
item keyed by its own `item_id`, which is then retrievable. -/
theorem C7_add_item_contract (inv : Inventory) (item : Item) :
    ((getItem item.item_id inv.items).isSome = true →
        inv.add_item item = (inv, some .alreadyExists)) ∧
    (getItem item.item_id inv.items = none →
        inv.add_item item = (⟨inv.items ++ [(item.item_id, item)]⟩, none) ∧
        getItem item.item_id (inv.add_item item).1.items = some item) := by
  constructor
  · intro h
    simp [Inventory.add_item, h]
  · intro h
    have hadd : inv.add_item item = (⟨inv.items ++ [(item.item_id, item)]⟩, none) := by
      simp [Inventory.add_item, h]
    refine ⟨hadd, ?_⟩
    rw [hadd]
    exact getItem_append_self item.item_id item inv.items h

/-- Witness for C7: duplicate insert of id 1 is rejected unchanged; fresh
insert of id 2 is appended and retrievable. -/
theorem C7_add_item_contract_witness :
    (Inventory.mk [(1, Item.mk 1 "w" 10 5 0)]).add_item (Item.mk 1 "x" 3 1 0)
      = (Inventory.mk [(1, Item.mk 1 "w" 10 5 0)], some Err.alreadyExists) ∧
    (Inventory.mk [(1, Item.mk 1 "w" 10 5 0)]).add_item (Item.mk 2 "x" 3 1 0)
      = (Inventory.mk [(1, Item.mk 1 "w" 10 5 0), (2, Item.mk 2 "x" 3 1 0)], none) ∧
    getItem 2 ((Inventory.mk [(1, Item.mk 1 "w" 10 5 0)]).add_item (Item.mk 2 "x" 3 1 0)).1.items
      = some (Item.mk 2 "x" 3 1 0) :=
  ⟨(C7_add_item_contract (Inventory.mk [(1, Item.mk 1 "w" 10 5 0)]) (Item.mk 1 "x" 3 1 0)).1
      (by decide),
   ((C7_add_item_contract (Inventory.mk [(1, Item.mk 1 "w" 10 5 0)]) (Item.mk 2 "x" 3 1 0)).2
      (by decide)).1,
   ((C7_add_item_contract (Inventory.mk [(1, Item.mk 1 "w" 10 5 0)]) (Item.mk 2 "x" 3 1 0)).2
      (by decide)).2⟩

/-- C8: `checkout_cart` returns the cart's total, appends exactly one
`Sale` carrying the detached `(name, quantity)` line entries and that
total, and leaves the inventory (hence every item) and user unchanged. -/
theorem C8_checkout_frame (s : Store) (cart : Cart) (customer_name : String) (now : Nat) :
    (s.checkout_cart cart customer_name now).2 = cart.total ∧
    (s.checkout_cart cart customer_name now).1.sales_history.sales =
      s.sales_history.sales ++
        [{ items := cart.cart_items.map (fun ci => SaleLine.mk ci.item.name ci.quantity),
           total_cost := cart.total, date := now, customer_name := customer_name }] ∧
    (s.checkout_cart cart customer_name now).1.inventory = s.inventory ∧
    (s.checkout_cart cart customer_name now).1.user = s.user :=
  ⟨rfl, rfl, rfl, rfl⟩

/-- C1 fails as stated: from an invariant-satisfying state,
`update_quantity` returns without error yet drives a quantity negative
(the overwrite has no lower-bound check). -/
theorem C1_update_quantity_counterexample :
    invGood (Inventory.mk [(1, Item.mk 1 "w" 10 5 0)]) ∧
    ((Inventory.mk [(1, Item.mk 1 "w" 10 5 0)]).update_quantity 1 (-1)).2 = none ∧
    ¬ invGood ((Inventory.mk [(1, Item.mk 1 "w" 10 5 0)]).update_quantity 1 (-1)).1 := by
  refine ⟨by decide, by decide, by decide⟩

/-- C1 amended: from an invariant-satisfying state every `Inventory`
operation preserves `quantity ≥ 0` and `discount ∈ [0,100]` — whether or
not it errors — provided `add_item`'s argument itself satisfies the
invariant and `update_quantity`'s new quantity is nonnegative (without
that proviso `update_quantity` succeeds and breaks the invariant). -/
theorem C1_invariants_amended (inv : Inventory) (hinv : invGood inv) :
    (∀ it : Item, goodItem it → invGood (inv.add_item it).1) ∧
    (∀ item_id q : Int, 0 ≤ q → invGood (inv.update_quantity item_id q).1) ∧
    (∀ item_id delta : Int, invGood (inv.adjust_quantity item_id delta).1) ∧
    (∀ (item_id : Int) (pc : ℚ), invGood (inv.apply_discount_to_item item_id pc).1) ∧
    (∀ pc : ℚ, invGood (inv.apply_discount_to_all pc).1) := by
  refine ⟨?_, ?_, ?_, ?_, ?_⟩
  · intro it hit
    unfold Inventory.add_item
    by_cases h : (getItem it.item_id inv.items).isSome
    · simpa [h] using hinv
    · simp only [if_neg h]
      intro p hp
      rcases List.mem_append.mp hp with h2 | h2
      · exact hinv p h2
      · rw [List.mem_singleton] at h2
        subst h2
        exact hit
  · intro item_id q hq
    unfold Inventory.update_quantity
    cases hg : getItem item_id inv.items with
    | none => exact hinv
    | some it =>
      intro p hp
      refine updateAt_preserves item_id _ inv.items hinv (fun it2 h2 => ?_) p hp
      have hgood := hinv (item_id, it2) (getItem_mem item_id inv.items it2 h2)
      exact ⟨hq, hgood.2.1, hgood.2.2⟩
  · intro item_id delta
    unfold Inventory.adjust_quantity
    cases hg : getItem item_id inv.items with
    | none => exact hinv
    | some it =>
      by_cases hneg : it.quantity + delta < 0
      · simpa [hneg] using hinv
      · simp only [if_neg hneg]
        intro p hp
        refine updateAt_preserves item_id _ inv.items hinv (fun it2 h2 => ?_) p hp
        have hit2 : it2 = it := by
          rw [hg] at h2
          exact (Option.some_injective _ h2).symm
        subst hit2
        have hgood := hinv (item_id, it2) (getItem_mem item_id inv.items it2 hg)
        refine ⟨?_, hgood.2.1, hgood.2.2⟩
        show (0 : ℤ) ≤ it2.quantity + delta
        omega
  · intro item_id pc
    unfold Inventory.apply_discount_to_item
    cases hg : getItem item_id inv.items with
    | none => exact hinv
    | some it =>
      by_cases hv : 0 ≤ pc ∧ pc ≤ 100
      · simp only [set_discount_valid it pc hv.1 hv.2]
        intro p hp
        refine updateAt_preserves item_id _ inv.items hinv (fun it2 h2 => ?_) p hp
        have hgood := hinv (item_id, it) (getItem_mem item_id inv.items it hg)
        exact ⟨hgood.1, hv.1, hv.2⟩
      · simp only [set_discount_invalid it pc hv]
        exact hinv
  · intro pc
    have hrepr : inv.apply_discount_to_all pc =
        (⟨(applyAllAux pc inv.items).1⟩, (applyAllAux pc inv.items).2) := rfl
    by_cases hv : 0 ≤ pc ∧ pc ≤ 100
    · rw [hrepr, applyAllAux_valid pc hv.1 hv.2]
      intro p hp
      simp only [List.mem_map] at hp
      obtain ⟨q, hq, rfl⟩ := hp
      have hgood := hinv q hq
      exact ⟨hgood.1, hv.1, hv.2⟩
    · rw [hrepr, applyAllAux_invalid pc hv]
      exact hinv

/-- Witness for the amended C1 on a one-item inventory: an adjustment and a
nonnegative overwrite both preserve the invariant. -/
theorem C1_invariants_amended_witness :
    invGood ((Inventory.mk [(1, Item.mk 1 "w" 10 5 0)]).adjust_quantity 1 (-2)).1 ∧
    invGood ((Inventory.mk [(1, Item.mk 1 "w" 10 5 0)]).update_quantity 1 9).1 :=
  ⟨(C1_invariants_amended (Inventory.mk [(1, Item.mk 1 "w" 10 5 0)]) (by decide)).2.2.1 1 (-2),
   (C1_invariants_amended (Inventory.mk [(1, Item.mk 1 "w" 10 5 0)]) (by decide)).2.1 1 9
      (by decide)⟩

/-- C4: for a customer-role user every admin-gated `Store` operation fails
with `PermissionDenied` leaving the whole store (in particular the
inventory mapping) unchanged; for an admin-role user the same call
delegates to the corresponding `Inventory` operation. -/
theorem C4_admin_gate (s : Store) (item_id q : Int) (nm : String) (pr : ℚ)
    (oid : Option Int) (pc : ℚ) :
    (s.user.role = "customer" →
      s.add_item_to_inventory item_id nm pr q = (s, some .permissionDenied) ∧
      s.update_inventory_quantity item_id q = (s, some .permissionDenied) ∧
      s.apply_discount oid pc = (s, some .permissionDenied)) ∧
    (s.user.role = "admin" →
      s.add_item_to_inventory item_id nm pr q =
        ({ s with inventory := (s.inventory.add_item (Item.init item_id nm pr q)).1 },
          (s.inventory.add_item (Item.init item_id nm pr q)).2) ∧
      s.update_inventory_quantity item_id q =
        ({ s with inventory := (s.inventory.update_quantity item_id q).1 },
          (s.inventory.update_quantity item_id q).2) ∧
      (∀ i : Int, i ≠ 0 → s.apply_discount (some i) pc =
        ({ s with inventory := (s.inventory.apply_discount_to_item i pc).1 },
          (s.inventory.apply_discount_to_item i pc).2)) ∧
      s.apply_discount none pc =
        ({ s with inventory := (s.inventory.apply_discount_to_all pc).1 },
          (s.inventory.apply_discount_to_all pc).2)) := by
  constructor
  · intro hrole
    have hadm : s.user.is_admin = false := by
      unfold User.is_admin
      rw [hrole]
      decide
    refine ⟨?_, ?_, ?_⟩ <;>
      simp [Store.add_item_to_inventory, Store.update_inventory_quantity,
        Store.apply_discount, hadm]
  · intro hrole
    have hadm : s.user.is_admin = true := by
      unfold User.is_admin
      rw [hrole]
      decide
    refine ⟨?_, ?_, fun i hi => ?_, ?_⟩
    · simp [Store.add_item_to_inventory, hadm]
    · simp [Store.update_inventory_quantity, hadm]
    · simp [Store.apply_discount, hadm, hi]
    · simp [Store.apply_discount, hadm]

/-- Witness for C4: a customer is refused `add_item_to_inventory` with the
store unchanged; an admin's identical call delegates to the inventory. -/
theorem C4_admin_gate_witness :
    (Store.mk (Inventory.mk []) (SalesHistory.mk []) (User.mk "c" "customer")).add_item_to_inventory
        1 "w" 10 5
      = (Store.mk (Inventory.mk []) (SalesHistory.mk []) (User.mk "c" "customer"),
          some Err.permissionDenied) ∧
    (Store.mk (Inventory.mk []) (SalesHistory.mk []) (User.mk "a" "admin")).add_item_to_inventory
        1 "w" 10 5
      = (Store.mk
          ((Inventory.mk []).add_item (Item.init 1 "w" 10 5)).1
          (SalesHistory.mk []) (User.mk "a" "admin"),
          ((Inventory.mk []).add_item (Item.init 1 "w" 10 5)).2) :=
  ⟨((C4_admin_gate
      (Store.mk (Inventory.mk []) (SalesHistory.mk []) (User.mk "c" "customer"))
      1 5 "w" 10 none 0).1 rfl).1,
   ((C4_admin_gate
      (Store.mk (Inventory.mk []) (SalesHistory.mk []) (User.mk "a" "admin"))
      1 5 "w" 10 none 0).2 rfl).1⟩

/-- C5: `from_dict ∘ to_dict` is the identity on all five attributes,
`from_dict` defaults a missing discount to 0, and for an inventory whose
keys are unique and equal to their items' ids, `load` after `save`
reproduces the inventory exactly. -/
theorem C5_serialization_roundtrip (it : Item) (r : ItemRecord) (inv : Inventory)
    (hkeys : ∀ p ∈ inv.items, p.1 = p.2.item_id)
    (hnodup : (keysOf inv.items).Nodup) :
    Item.from_dict (Item.to_dict it) = it ∧
    (r.discount = none → (Item.from_dict r).discount = 0) ∧
    Inventory.load_inventory inv.save_inventory = inv := by
  obtain ⟨l⟩ := inv
  refine ⟨rfl, fun h => by simp [Item.from_dict, h], ?_⟩
  unfold Inventory.load_inventory Inventory.save_inventory
  have hids : (l.map (fun p => p.2.to_dict)).map ItemRecord.item_id = keysOf l := by
    rw [List.map_map, keysOf]
    exact List.map_congr_left (fun p hp => (hkeys p hp).symm)
  rw [load_foldl _ [] (hids ▸ hnodup) (by simp [keysOf])]
  rw [List.nil_append, List.map_map]
  congr 1
  have hpt : ∀ p ∈ l,
      ((fun r => (r.item_id, Item.from_dict r)) ∘ fun p => p.2.to_dict) p = id p := by
    intro p hp
    obtain ⟨k, it2⟩ := p
    have hk := hkeys (k, it2) hp
    simp only [Function.comp_apply, id_eq]
    rw [show (k, it2).1 = k from rfl] at hk
    rw [show ((it2.to_dict).item_id, Item.from_dict it2.to_dict) = (it2.item_id, it2) from rfl]
    rw [← hk]
  rw [List.map_congr_left hpt, List.map_id]

/-- Witness for C5: a two-item inventory (one discounted) survives the
save/load round trip; a record without a discount deserializes to 0. -/
theorem C5_serialization_roundtrip_witness :
    Item.from_dict (Item.to_dict (Item.mk 1 "a" 10 5 20)) = Item.mk 1 "a" 10 5 20 ∧
    (Item.from_dict (ItemRecord.mk 3 "c" 7 2 none)).discount = 0 ∧
    Inventory.load_inventory
        (Inventory.mk [(1, Item.mk 1 "a" 10 5 20), (2, Item.mk 2 "b" 3 1 0)]).save_inventory
      = Inventory.mk [(1, Item.mk 1 "a" 10 5 20), (2, Item.mk 2 "b" 3 1 0)] :=
  ⟨(C5_serialization_roundtrip (Item.mk 1 "a" 10 5 20) (ItemRecord.mk 3 "c" 7 2 none)
      (Inventory.mk [(1, Item.mk 1 "a" 10 5 20), (2, Item.mk 2 "b" 3 1 0)])
      (by decide) (by decide)).1,
   (C5_serialization_roundtrip (Item.mk 1 "a" 10 5 20) (ItemRecord.mk 3 "c" 7 2 none)
      (Inventory.mk [(1, Item.mk 1 "a" 10 5 20), (2, Item.mk 2 "b" 3 1 0)])
      (by decide) (by decide)).2.1 rfl,
   (C5_serialization_roundtrip (Item.mk 1 "a" 10 5 20) (ItemRecord.mk 3 "c" 7 2 none)
      (Inventory.mk [(1, Item.mk 1 "a" 10 5 20), (2, Item.mk 2 "b" 3 1 0)])
      (by decide) (by decide)).2.2⟩

/-- C9 fails as stated: `set_discount`'s range check depends only on the
percent, so a failing bulk application fails at the very first item and can
never leave a state that differs from the original — no input exhibits
genuinely partial application. -/
theorem C9_no_partial_state_counterexample :
    ¬ ∃ (inv : Inventory) (pc : ℚ),
        (inv.apply_discount_to_all pc).2 ≠ none ∧
        (inv.apply_discount_to_all pc).1 ≠ inv := by
  rintro ⟨inv, pc, herr, hchange⟩
  have hrepr : inv.apply_discount_to_all pc =
      (⟨(applyAllAux pc inv.items).1⟩, (applyAllAux pc inv.items).2) := rfl
  by_cases hv : 0 ≤ pc ∧ pc ≤ 100
  · apply herr
    rw [hrepr, applyAllAux_valid pc hv.1 hv.2]
  · apply hchange
    rw [hrepr, applyAllAux_invalid pc hv]

/-- C9 amended: `apply_discount_to_all` fails exactly when the inventory is
nonempty and the percent is out of range, and on failure the inventory is
left entirely unchanged (the fail-fast loop rejects at the first item, so
the "partially-applied state" is always the original state). -/
theorem C9_fail_fast_amended (inv : Inventory) (pc : ℚ) :
    ((inv.apply_discount_to_all pc).2 ≠ none ↔
        inv.items ≠ [] ∧ ¬ (0 ≤ pc ∧ pc ≤ 100)) ∧
    ((inv.apply_discount_to_all pc).2 ≠ none → (inv.apply_discount_to_all pc).1 = inv) := by
  have hrepr : inv.apply_discount_to_all pc =
      (⟨(applyAllAux pc inv.items).1⟩, (applyAllAux pc inv.items).2) := rfl
  by_cases hv : 0 ≤ pc ∧ pc ≤ 100
  · rw [hrepr, applyAllAux_valid pc hv.1 hv.2]
    simp [hv]
  · rw [hrepr, applyAllAux_invalid pc hv]
    by_cases hl : inv.items = []
    · simp [hl]
    · simp [hl, hv]

/-- Witness for the amended C9: a 150% bulk discount on a two-item
inventory fails and leaves the inventory exactly as it was. -/
theorem C9_fail_fast_amended_witness :
    ((Inventory.mk [(1, Item.mk 1 "a" 10 5 0), (2, Item.mk 2 "b" 3 1 0)]).apply_discount_to_all
        150).2 ≠ none ∧
    ((Inventory.mk [(1, Item.mk 1 "a" 10 5 0), (2, Item.mk 2 "b" 3 1 0)]).apply_discount_to_all
        150).1 = Inventory.mk [(1, Item.mk 1 "a" 10 5 0), (2, Item.mk 2 "b" 3 1 0)] :=
  have herr :=
    (C9_fail_fast_amended
      (Inventory.mk [(1, Item.mk 1 "a" 10 5 0), (2, Item.mk 2 "b" 3 1 0)]) 150).1.mpr
      ⟨by decide, by decide⟩
  ⟨herr,
   (C9_fail_fast_amended
      (Inventory.mk [(1, Item.mk 1 "a" 10 5 0), (2, Item.mk 2 "b" 3 1 0)]) 150).2 herr⟩

/-- C10: with an admin user, `apply_discount` called with the falsy id `0`
dispatches on `if item_id:` and therefore runs the bulk branch, setting the
discount of every item in the inventory, not only the one stored under
id 0. -/
theorem C10_falsy_id_applies_to_all (s : Store) (pc : ℚ) (it0 : Item)
    (hadmin : s.user.is_admin = true)
    (hmem : getItem 0 s.inventory.items = some it0)
    (h0 : 0 ≤ pc) (h1 : pc ≤ 100) :
    s.apply_discount (some 0) pc =
      ({ s with inventory := (s.inventory.apply_discount_to_all pc).1 },
        (s.inventory.apply_discount_to_all pc).2) ∧
    ∀ q ∈ (s.apply_discount (some 0) pc).1.inventory.items, q.2.discount = pc := by
  have hdisp : s.apply_discount (some 0) pc =
      ({ s with inventory := (s.inventory.apply_discount_to_all pc).1 },
        (s.inventory.apply_discount_to_all pc).2) := by
    simp [Store.apply_discount, hadmin]
  refine ⟨hdisp, ?_⟩
  rw [hdisp]
  have hall : s.inventory.apply_discount_to_all pc =
      (⟨s.inventory.items.map (fun q => (q.1, { q.2 with discount := pc }))⟩, none) := by
    have hrepr : s.inventory.apply_discount_to_all pc =
        (⟨(applyAllAux pc s.inventory.items).1⟩, (applyAllAux pc s.inventory.items).2) := rfl
    rw [hrepr, applyAllAux_valid pc h0 h1]
  rw [hall]
  intro q hq
  simp only [List.mem_map] at hq
  obtain ⟨q0, _, rfl⟩ := hq
  rfl

/-- Witness for C10: an admin store holding items under ids 0 and 7 sees
`apply_discount(0, 20)` take the bulk branch. -/
theorem C10_falsy_id_applies_to_all_witness :
    (Store.mk (Inventory.mk [(0, Item.mk 0 "a" 10 5 0), (7, Item.mk 7 "b" 3 1 0)])
        (SalesHistory.mk []) (User.mk "u" "admin")).apply_discount (some 0) 20
      = (Store.mk
          ((Inventory.mk [(0, Item.mk 0 "a" 10 5 0), (7, Item.mk 7 "b" 3 1 0)]).apply_discount_to_all
              20).1
          (SalesHistory.mk []) (User.mk "u" "admin"),
         ((Inventory.mk [(0, Item.mk 0 "a" 10 5 0), (7, Item.mk 7 "b" 3 1 0)]).apply_discount_to_all
              20).2) :=
  (C10_falsy_id_applies_to_all
    (Store.mk (Inventory.mk [(0, Item.mk 0 "a" 10 5 0), (7, Item.mk 7 "b" 3 1 0)])
      (SalesHistory.mk []) (User.mk "u" "admin"))
    20 (Item.mk 0 "a" 10 5 0) (by decide) (by decide) (by decide) (by decide)).1

end Handler
